import Mathlib

/-!
Verification development for the NitroIDB transaction / bulk-write core.

The definitions below are a shallow embedding of:
  * the error taxonomy (`src/src/errors/transaction.ts`, `src/src/errors/storage.ts`),
  * `TransactionManager.execute`, `TransactionManager.executeWithTimeout` and
    `TransactionManager.isRetryableError` (src/unnamed/part_017),
  * `BulkWriteEngine.bulkAdd`, `bulkDelete`, `writeBatch`, `deleteBatch` and
    `handleError` (src/unnamed/part_004).

Asynchronous, event-driven code is embedded as explicit state machines: each
JavaScript event handler becomes one arm of a step function over an explicit
state record, and a run of the code is a left fold of the step function over a
list of events (the order in which the platform delivers timer / request /
transaction signals).  Promise settlement attempts (calls to `resolve` /
`reject`) are recorded in an append-only log inside the state, so that
"settles exactly once" properties are about the length and shape of that log.
-/

namespace NitroIDB

/-- Whether character list `p` starts the list `s`
(helper for the JS `String.prototype.includes` used by `isRetryableError` and
`handleError`). -/
def startsWithChars : List Char → List Char → Bool
  | _, [] => true
  | [], _ :: _ => false
  | a :: as, b :: bs => a == b && startsWithChars as bs

/-- Whether `p` occurs as a contiguous run inside the second list. -/
def hasSubChars (p : List Char) : List Char → Bool
  | [] => p.isEmpty
  | c :: rest => startsWithChars (c :: rest) p || hasSubChars p rest

/-- JS `s.includes(p)`: substring test, case-sensitive. -/
def includes (s p : String) : Bool :=
  hasSubChars p.toList s.toList

/-- The NitroIDB error classes (`src/src/errors`).  Each constructor carries
exactly the data that the corresponding class constructor interpolates into
its message; `instanceof` tests in the source become constructor tests. -/
inductive JsErr where
  | transactionTimeout (timeout : Nat)
  | transactionAborted (reason : Option String)
  | quotaExceeded
  | storageEvicted
  | generic (msg : String)
deriving Repr, DecidableEq

/-- The `message` each error class passes to `super(message, code, ...)`. -/
def JsErr.message : JsErr → String
  | .transactionTimeout t => "Transaction timed out after " ++ toString t ++ "ms"
  | .transactionAborted (some r) => "Transaction was aborted: " ++ r
  | .transactionAborted none => "Transaction was aborted"
  | .quotaExceeded => "Storage quota exceeded"
  | .storageEvicted => "Storage quota exceeded or data was evicted"
  | .generic m => m

/-- JS test `e instanceof TransactionTimeoutError`. -/
def JsErr.isTimeoutErr : JsErr → Bool
  | .transactionTimeout _ => true
  | _ => false

/-- JS test `e instanceof TransactionAbortedError`. -/
def JsErr.isAbortedErr : JsErr → Bool
  | .transactionAborted _ => true
  | _ => false

/-- Model of `TransactionManager.isRetryableError` (part_017 lines 570-587): retry when
the message contains "network" or "timeout"; refuse when it contains
"constraint", "duplicate" or "unique"; otherwise retry exactly the
`TransactionAbortedError`s. -/
def isRetryableError (e : JsErr) : Bool :=
  if includes e.message "network" || includes e.message "timeout" then
    true
  else if includes e.message "constraint" || includes e.message "duplicate"
      || includes e.message "unique" then
    false
  else
    e.isAbortedErr

/-- Model of `TransactionManager.execute` (part_017 lines 360-403), with the outcome of
the n-th `executeWithTimeout` attempt supplied by the environment `outcomes`.
Returns the surfaced result together with the number of attempts performed.
The fuel argument mirrors the `while (attempt <= maxRetries)` guard; the run
is started with fuel `maxRetries + 1`, and the base case is the loop's
trailing `throw lastError ?? new Error('Transaction failed after retries')`. -/
def executeGo (outcomes : Nat → Except JsErr α) (maxRetries : Nat) :
    Option JsErr → Nat → Nat → Except JsErr α × Nat
  | lastError, attempt, 0 =>
      (Except.error (lastError.getD (JsErr.generic "Transaction failed after retries")), attempt)
  | _, attempt, fuel + 1 =>
      match outcomes attempt with
      | Except.ok v => (Except.ok v, attempt + 1)
      | Except.error e =>
          if e.isTimeoutErr || e.isAbortedErr then
            if !isRetryableError e || maxRetries ≤ attempt then
              (Except.error e, attempt + 1)
            else
              executeGo outcomes maxRetries (some e) (attempt + 1) fuel
          else if maxRetries ≤ attempt then
            (Except.error e, attempt + 1)
          else
            executeGo outcomes maxRetries (some e) (attempt + 1) fuel

/-- Entry point `executeTransaction(storeNames, mode, callback, options)`: run the retry
loop from attempt 0. -/
def executeModel (outcomes : Nat → Except JsErr α) (maxRetries : Nat) :
    Except JsErr α × Nat :=
  executeGo outcomes maxRetries none 0 (maxRetries + 1)

theorem executeGo_attempts_le (outcomes : Nat → Except JsErr α) (maxRetries : Nat)
    (lastError : Option JsErr) (attempt fuel : Nat) :
    (executeGo outcomes maxRetries lastError attempt fuel).2 ≤ attempt + fuel := by
  induction fuel generalizing lastError attempt with
  | zero => simp [executeGo]
  | succ n ih =>
      unfold executeGo
      cases outcomes attempt with
      | ok v => simp
      | error e =>
          simp only []
          split
          · split
            · simp
            · have h := ih (some e) (attempt + 1)
              omega
          · split
            · simp
            · have h := ih (some e) (attempt + 1)
              omega

/-- The record a resolved `writeBatch` / `deleteBatch` promise carries
(the `results` object of part_004 lines 173-178 / 378-383). -/
structure WBRes where
  success : Nat
  failed : Nat
  failedIndices : List Nat
  errors : List JsErr
deriving Repr, DecidableEq

/-- Structure `BulkWriteResult` (part_004 lines 25-34): the two optional fields are
`undefined` (`none`) rather than empty arrays when nothing failed. -/
structure BulkWriteResult where
  success : Nat
  failed : Nat
  failedIndices : Option (List Nat)
  errors : Option (List JsErr)
deriving Repr, DecidableEq

/-- The mutable locals of one `bulkAdd` / `bulkDelete` call
(`currentBatchSize`, `successCount`, `failedCount`, `failedIndices`,
`errors`), plus instrumentation: `calls` counts the batch submissions made so
far (it indexes into the environment that supplies each submission's
outcome), and `progressLog` records the `(done, total)` arguments of every
progress-callback invocation in order. -/
structure RunSt where
  curSize : Nat
  success : Nat
  failed : Nat
  failedIndices : List Nat
  errors : List JsErr
  calls : Nat
  progressLog : List (Nat × Nat)
deriving Repr, DecidableEq

/-- The retry loop one batch goes through inside `bulkAdd` (part_004 lines
77-126).  `env` yields the outcome of each `writeBatch` call (indexed by
`st.calls`): `ok` is a resolved promise carrying a `WBRes`, `error` a
rejection.  `batchSize` is the initially configured size (the JS `batchSize`
local), `batchStart` the slice offset, `batchLen` the slice length.  The
`attempt`/`fuel` pair encodes `while (attempt <= maxRetries && !batchSuccess)`
(entered with attempt 0 and fuel `maxRetries + 1`; fuel 0 cannot be reached
because the `attempt > maxRetries` arm exits first).  `Math.floor(x * 0.5)`
is exactly `x / 2` on natural sizes, and `Math.floor(x * 0.7)` is `x * 7 / 10`
(for sizes far below 2^52 the double rounding never crosses an integer). -/
def addBatchTry (env : Nat → Except JsErr WBRes) (maxRetries batchSize batchStart batchLen : Nat) :
    Nat → Nat → RunSt → RunSt
  | _, 0, st => st
  | attempt, fuel + 1, st =>
      match env st.calls with
      | Except.ok r =>
          let st1 : RunSt :=
            { st with
              success := st.success + r.success
              failed := st.failed + r.failed
              failedIndices := st.failedIndices ++ r.failedIndices.map (fun idx => batchStart + idx)
              errors := st.errors ++ r.errors
              calls := st.calls + 1 }
          if attempt == 0 && st1.curSize < batchSize * 2 then
            { st1 with curSize := min (st1.curSize + 10) (batchSize * 2) }
          else
            st1
      | Except.error e =>
          let st1 : RunSt := { st with calls := st.calls + 1 }
          if maxRetries < attempt + 1 then
            { st1 with
              failed := st1.failed + batchLen
              errors := st1.errors ++ [e]
              failedIndices := st1.failedIndices ++ (List.range batchLen).map (fun idx => batchStart + idx)
              curSize := max (st1.curSize / 2) 10 }
          else
            let st2 : RunSt :=
              if 1 < attempt + 1 then { st1 with curSize := max (st1.curSize * 7 / 10) 10 }
              else st1
            addBatchTry env maxRetries batchSize batchStart batchLen (attempt + 1) fuel st2

/-- The batch loop of `bulkAdd` (part_004 lines 73-132): slice the next
`currentBatchSize` records, run the retry loop on the slice, report progress,
then advance the index by the CURRENT batch size — the value as updated by
the retry loop, not the size the slice was taken with.  Fuel bounds the
number of iterations; since the index advances by at least 1 per iteration
whenever the size is positive, fuel `records.length` is enough. -/
def bulkAddLoop (env : Nat → Except JsErr WBRes) (maxRetries batchSize total : Nat) :
    Nat → Nat → RunSt → RunSt
  | _, 0, st => st
  | i, fuel + 1, st =>
      if i < total then
        let batchLen := min st.curSize (total - i)
        let st1 := addBatchTry env maxRetries batchSize i batchLen 0 (maxRetries + 1) st
        let st2 : RunSt := { st1 with progressLog := st1.progressLog ++ [(st1.success + st1.failed, total)] }
        bulkAddLoop env maxRetries batchSize total (i + st2.curSize) fuel st2
      else
        st

/-- Initial locals of a bulk call: `currentBatchSize = batchSize`, all
counters zero. -/
def runInit (batchSize : Nat) : RunSt :=
  { curSize := batchSize, success := 0, failed := 0, failedIndices := [],
    errors := [], calls := 0, progressLog := [] }

/-- Model of `bulkAdd(records, options)` down to its final loop state. -/
def bulkAddModel (env : Nat → Except JsErr WBRes) (records : List α)
    (batchSize maxRetries : Nat) : RunSt :=
  bulkAddLoop env maxRetries batchSize records.length 0 records.length (runInit batchSize)

/-- Build the returned `BulkWriteResult` (part_004 lines 134-139 / 340-345):
optional fields only when non-empty. -/
def finalizeResult (st : RunSt) : BulkWriteResult :=
  { success := st.success
    failed := st.failed
    failedIndices := if 0 < st.failedIndices.length then some st.failedIndices else none
    errors := if 0 < st.errors.length then some st.errors else none }

/-- Model of `BulkWriteEngine.bulkAdd` (part_004 lines 51-140), with the empty-input
short-circuit of lines 55-57. -/
def bulkAdd (env : Nat → Except JsErr WBRes) (records : List α)
    (batchSize maxRetries : Nat) : BulkWriteResult :=
  if records.length == 0 then
    { success := 0, failed := 0, failedIndices := none, errors := none }
  else
    finalizeResult (bulkAddModel env records batchSize maxRetries)

/-- The retry loop one batch goes through inside `bulkDelete` (part_004 lines
296-333) — identical to `bulkAdd`'s except that there is no batch-size growth
arm after a first-attempt success. -/
def delBatchTry (env : Nat → Except JsErr WBRes) (maxRetries batchStart batchLen : Nat) :
    Nat → Nat → RunSt → RunSt
  | _, 0, st => st
  | attempt, fuel + 1, st =>
      match env st.calls with
      | Except.ok r =>
          { st with
            success := st.success + r.success
            failed := st.failed + r.failed
            failedIndices := st.failedIndices ++ r.failedIndices.map (fun idx => batchStart + idx)
            errors := st.errors ++ r.errors
            calls := st.calls + 1 }
      | Except.error e =>
          let st1 : RunSt := { st with calls := st.calls + 1 }
          if maxRetries < attempt + 1 then
            { st1 with
              failed := st1.failed + batchLen
              errors := st1.errors ++ [e]
              failedIndices := st1.failedIndices ++ (List.range batchLen).map (fun idx => batchStart + idx)
              curSize := max (st1.curSize / 2) 10 }
          else
            let st2 : RunSt :=
              if 1 < attempt + 1 then { st1 with curSize := max (st1.curSize * 7 / 10) 10 }
              else st1
            delBatchTry env maxRetries batchStart batchLen (attempt + 1) fuel st2

/-- The batch loop of `bulkDelete` (part_004 lines 292-338). -/
def bulkDeleteLoop (env : Nat → Except JsErr WBRes) (maxRetries total : Nat) :
    Nat → Nat → RunSt → RunSt
  | _, 0, st => st
  | i, fuel + 1, st =>
      if i < total then
        let batchLen := min st.curSize (total - i)
        let st1 := delBatchTry env maxRetries i batchLen 0 (maxRetries + 1) st
        let st2 : RunSt := { st1 with progressLog := st1.progressLog ++ [(st1.success + st1.failed, total)] }
        bulkDeleteLoop env maxRetries total (i + st2.curSize) fuel st2
      else
        st

/-- Model of `bulkDelete(keys, options)` down to its final loop state;
`none` stands for a `null`/`undefined` key. -/
def bulkDeleteModel (env : Nat → Except JsErr WBRes) (keys : List (Option κ))
    (batchSize maxRetries : Nat) : RunSt :=
  bulkDeleteLoop env maxRetries keys.length 0 keys.length (runInit batchSize)

/-- Model of `BulkWriteEngine.bulkDelete` (part_004 lines 270-346). -/
def bulkDelete (env : Nat → Except JsErr WBRes) (keys : List (Option κ))
    (batchSize maxRetries : Nat) : BulkWriteResult :=
  if keys.length == 0 then
    { success := 0, failed := 0, failedIndices := none, errors := none }
  else
    finalizeResult (bulkDeleteModel env keys batchSize maxRetries)

/-- C8: `execute` with `retries = N` performs at most `N + 1` attempts before
surfacing a terminal outcome, whatever the attempts' outcomes are; the loop is
a total function of the retry budget, so it always terminates. -/
theorem execute_attempt_count_le (outcomes : Nat → Except JsErr α) (maxRetries : Nat) :
    (executeModel outcomes maxRetries).2 ≤ maxRetries + 1 := by
  simpa using executeGo_attempts_le outcomes maxRetries none 0 (maxRetries + 1)

/-- C4: a transaction-timeout error is NOT classified retryable — its message
is "Transaction timed out after 5000ms", which does not contain the substring
"timeout" that `isRetryableError` looks for, and a `TransactionTimeoutError`
is not an `instanceof TransactionAbortedError` — so `execute` with
`retries = 1` propagates the timeout after a single attempt instead of
sleeping and retrying. -/
theorem timeout_not_retried :
    isRetryableError (JsErr.transactionTimeout 5000) = false ∧
    executeModel (fun _ => (Except.error (JsErr.transactionTimeout 5000) : Except JsErr Unit)) 1 =
      (Except.error (JsErr.transactionTimeout 5000), 1) := by
  constructor
  · decide
  · rfl

/-- A raw platform failure (`DOMException` / `Error`): symbolic `name` plus
`message`, the two fields `handleError` inspects. -/
structure RawErr where
  name : String
  message : String
deriving Repr, DecidableEq

/-- Model of `BulkWriteEngine.handleError` (part_004 lines 489-512): classify by the
raw error's symbolic name first, then by case-sensitive message substrings. -/
def handleError (raw : RawErr) (operation : String) (index : Option Nat) : JsErr :=
  if raw.name == "QuotaExceededError" then
    JsErr.quotaExceeded
  else if raw.name == "UnknownError" || includes raw.message "quota"
      || includes raw.message "storage" then
    JsErr.storageEvicted
  else
    JsErr.transactionAborted (some ("Bulk operation \"" ++ operation ++ "\" failed" ++
      (match index with
       | some i => " at index " ++ toString i
       | none => "") ++ ": " ++ raw.message))

/-- One settlement attempt of the per-batch promise: a call to `resolve` or
to `reject`.  JS promises ignore every call after the first; the log records
each attempt so that single-settlement is a statement about the log. -/
inductive Settle where
  | resolved (r : WBRes)
  | rejected (e : JsErr)
deriving Repr, DecidableEq

/-- The captured locals of one `writeBatch` / `deleteBatch` promise executor
(part_004 lines 151-181 / 357-386): the timer handle, the
`transactionCompleted` flag, the `results` object, the `completed` counter,
the `hasError` flag, whether `transaction.abort()` was invoked, and the log
of settlement attempts. -/
structure WBState where
  timerActive : Bool
  transactionCompleted : Bool
  success : Nat
  failed : Nat
  failedIndices : List Nat
  errors : List JsErr
  completed : Nat
  hasError : Bool
  abortRequested : Bool
  settleLog : List Settle
deriving Repr, DecidableEq

/-- The `results` object as the handlers would pass it to `resolve`. -/
def wbResults (st : WBState) : WBRes :=
  { success := st.success, failed := st.failed,
    failedIndices := st.failedIndices, errors := st.errors }

/-- One platform signal delivered to the batch promise's handlers: the
timeout callback, request `i`'s success (`none`) or error (`some raw`) event,
the transaction's error event (carrying `transaction.error` when present), or
its abort event.  The platform chooses the delivery order; a run of the
executor is a fold of the handlers over such a list. -/
inductive WBEvent where
  | timerFire
  | itemDone (i : Nat) (err : Option RawErr)
  | txError (err : Option RawErr)
  | txAbort
deriving Repr, DecidableEq

/-- The event handlers installed by `writeBatch` (part_004 lines 159-263) and
`deleteBatch` (lines 364-482); the two differ only in the `operation` string
passed to `handleError`.  Each arm is the corresponding JS handler:

* timeout callback (159-171 / 364-376): if not completed, mark completed,
  abort the transaction and reject with `TransactionTimeoutError` — no
  settled-flag re-check in any later path will undo this entry;
* `request.onsuccess` (188-199 / 408-419): bump `success` and `completed`,
  and resolve when all items have reported and no error was seen — without
  consulting `transactionCompleted`;
* `request.onerror` (201-226 / 421-445): record the failure only if it is
  the FIRST one (`hasError` guard), always bump `completed`, and resolve when
  all items have reported — again without consulting `transactionCompleted`;
* `transaction.onerror` / `onabort` (229-263 / 448-482): clear the timer and
  reject unless already completed. -/
def wbStep (operation : String) (batchLen timeout : Nat) (st : WBState) : WBEvent → WBState
  | .timerFire =>
      if st.timerActive then
        let st1 : WBState := { st with timerActive := false }
        if !st1.transactionCompleted then
          { st1 with transactionCompleted := true, abortRequested := true,
                     settleLog := st1.settleLog ++ [Settle.rejected (JsErr.transactionTimeout timeout)] }
        else st1
      else st
  | .itemDone i err =>
      match err with
      | none =>
          let st1 : WBState := { st with success := st.success + 1, completed := st.completed + 1 }
          if st1.completed == batchLen && !st1.hasError then
            { st1 with timerActive := false, transactionCompleted := true,
                       settleLog := st1.settleLog ++ [Settle.resolved (wbResults st1)] }
          else st1
      | some raw =>
          let st1 : WBState :=
            if !st.hasError then
              { st with hasError := true,
                        failed := st.failed + 1,
                        failedIndices := st.failedIndices ++ [i],
                        errors := st.errors ++ [handleError raw operation (some i)] }
            else st
          let st2 : WBState := { st1 with completed := st1.completed + 1 }
          if st2.completed == batchLen then
            { st2 with timerActive := false, transactionCompleted := true,
                       settleLog := st2.settleLog ++ [Settle.resolved (wbResults st2)] }
          else st2
  | .txError raw =>
      let st1 : WBState := { st with timerActive := false }
      if !st1.transactionCompleted then
        { st1 with transactionCompleted := true,
                   settleLog := st1.settleLog ++ [Settle.rejected (JsErr.transactionAborted
                     (some ((raw.map RawErr.message).getD "Transaction failed")))] }
      else st1
  | .txAbort =>
      let st1 : WBState := { st with timerActive := false }
      if !st1.transactionCompleted then
        { st1 with transactionCompleted := true,
                   settleLog := st1.settleLog ++ [Settle.rejected (JsErr.transactionAborted
                     (some "Transaction was aborted"))] }
      else st1

/-- State of the promise executor just after `writeBatch` has issued all its
requests: timer armed, nothing completed. -/
def wbInit : WBState :=
  { timerActive := true, transactionCompleted := false, success := 0, failed := 0,
    failedIndices := [], errors := [], completed := 0, hasError := false,
    abortRequested := false, settleLog := [] }

/-- Run `writeBatch`'s handlers over a platform-chosen event order. -/
def wbRun (batchLen timeout : Nat) (events : List WBEvent) : WBState :=
  events.foldl (wbStep "bulkAdd" batchLen timeout) wbInit

/-- Run `writeBatch`'s handlers over per-item completions only, the
`outs` list giving each reporting request's index and optional error. -/
def wbRunItems (batchLen timeout : Nat) (outs : List (Nat × Option RawErr)) : WBState :=
  outs.foldl (fun s q => wbStep "bulkAdd" batchLen timeout s (WBEvent.itemDone q.1 q.2)) wbInit

theorem wbStep_item_facts (op : String) (bl t : Nat) (st : WBState) (i : Nat)
    (err : Option RawErr) :
    (wbStep op bl t st (WBEvent.itemDone i err)).completed = st.completed + 1 ∧
    (wbStep op bl t st (WBEvent.itemDone i err)).hasError = (st.hasError || err.isSome) ∧
    (wbStep op bl t st (WBEvent.itemDone i err)).failed
      = st.failed + (if st.hasError then 0 else if err.isSome then 1 else 0) ∧
    ((wbStep op bl t st (WBEvent.itemDone i err)).settleLog = st.settleLog ∨
      (wbStep op bl t st (WBEvent.itemDone i err)).completed = bl) := by
  cases err with
  | none =>
      cases hE : st.hasError with
      | true =>
          simp only [wbStep, hE]
          split
          · rename_i h
            simp only [Bool.and_eq_true, beq_iff_eq] at h
            refine ⟨rfl, by simp, by simp, Or.inr h.1⟩
          · exact ⟨rfl, by simp, by simp, Or.inl rfl⟩
      | false =>
          simp only [wbStep, hE]
          split
          · rename_i h
            simp only [Bool.and_eq_true, beq_iff_eq] at h
            refine ⟨rfl, by simp, by simp, Or.inr h.1⟩
          · exact ⟨rfl, by simp, by simp, Or.inl rfl⟩
  | some raw =>
      cases hE : st.hasError with
      | true =>
          simp only [wbStep, hE, Bool.not_true, Bool.false_eq_true, if_false]
          split
          · rename_i h
            simp only [beq_iff_eq] at h
            refine ⟨rfl, by simp, by simp, Or.inr h⟩
          · exact ⟨rfl, by simp, by simp, Or.inl rfl⟩
      | false =>
          simp only [wbStep, hE, Bool.not_false, if_true]
          split
          · rename_i h
            simp only [beq_iff_eq] at h
            refine ⟨rfl, by simp, by simp, Or.inr h⟩
          · exact ⟨rfl, by simp, by simp, Or.inl rfl⟩

/-- Does some entry of an item-report list carry an error? -/
def anyErr : List (Nat × Option RawErr) → Bool
  | [] => false
  | q :: rest => q.2.isSome || anyErr rest

theorem wbItems_fold (op : String) (bl t : Nat) (outs : List (Nat × Option RawErr))
    (st : WBState) :
    (outs.foldl (fun s q => wbStep op bl t s (WBEvent.itemDone q.1 q.2)) st).completed
      = st.completed + outs.length ∧
    (outs.foldl (fun s q => wbStep op bl t s (WBEvent.itemDone q.1 q.2)) st).hasError
      = (st.hasError || anyErr outs) ∧
    (outs.foldl (fun s q => wbStep op bl t s (WBEvent.itemDone q.1 q.2)) st).failed
      = st.failed + (if st.hasError then 0 else if anyErr outs then 1 else 0) ∧
    ((outs.foldl (fun s q => wbStep op bl t s (WBEvent.itemDone q.1 q.2)) st).settleLog
        = st.settleLog ∨
      bl ≤ (outs.foldl (fun s q => wbStep op bl t s (WBEvent.itemDone q.1 q.2)) st).completed) := by
  induction outs generalizing st with
  | nil => simp [anyErr]
  | cons p rest ih =>
      obtain ⟨hc1, he1, hf1, hs1⟩ := wbStep_item_facts op bl t st p.1 p.2
      obtain ⟨hc2, he2, hf2, hs2⟩ := ih (wbStep op bl t st (WBEvent.itemDone p.1 p.2))
      simp only [List.foldl_cons, List.length_cons, anyErr]
      refine ⟨by omega, ?_, ?_, ?_⟩
      · rw [he2, he1, Bool.or_assoc]
      · rw [hf2, hf1, he1]
        cases hE : st.hasError with
        | true => simp
        | false =>
            by_cases hP : p.2.isSome = true
            · simp [hP]
            · simp only [Bool.not_eq_true] at hP
              simp [hP]
      · rcases hs2 with h | h
        · rw [h]
          rcases hs1 with h' | h'
          · exact Or.inl h'
          · right
            omega
        · exact Or.inr h

/-- C2: resolution of the per-batch promise is NOT idempotent in the code.
For a one-item batch, if the timeout fires first (rejecting with
`TransactionTimeoutError` and aborting the transaction) and the aborted
request's error event is then delivered, the item handler — which never
checks `transactionCompleted` — finds `completed == batch.length` and calls
`resolve` as well: the settlement log has TWO entries, a reject followed by a
resolve. -/
theorem writeBatch_double_settle :
    (wbRun 1 100 [WBEvent.timerFire,
        WBEvent.itemDone 0 (some ⟨"AbortError", "The transaction was aborted"⟩)]).settleLog =
      [Settle.rejected (JsErr.transactionTimeout 100),
       Settle.resolved ⟨0, 1, [0], [JsErr.transactionAborted
         (some "Bulk operation \"bulkAdd\" failed at index 0: The transaction was aborted")]⟩] ∧
    ¬ ((wbRun 1 100 [WBEvent.timerFire,
        WBEvent.itemDone 0 (some ⟨"AbortError", "The transaction was aborted"⟩)]).settleLog.length ≤ 1) := by
  constructor
  · rfl
  · decide

/-- C5 counterexample: a batch attempt in which BOTH of its two items fail
reports `failed = 1`, not 2 — the `hasError` guard in `request.onerror` makes
the second failing item bump only the completion counter, so it is counted
neither as succeeded nor as failed in the attempt's result. -/
theorem writeBatch_second_failure_unrecorded :
    (wbRunItems 2 100 [(0, some ⟨"ConstraintError", "Key already exists"⟩),
        (1, some ⟨"ConstraintError", "Key already exists"⟩)]).failed = 1 ∧
    ¬ ((wbRunItems 2 100 [(0, some ⟨"ConstraintError", "Key already exists"⟩),
        (1, some ⟨"ConstraintError", "Key already exists"⟩)]).failed = 2) := by
  constructor
  · rfl
  · decide

/-- C5 as amended: sibling items do keep processing after a failure — every
per-item report still bumps the completion counter, and a settlement can only
happen once the completion counter has reached the batch length — but only
the FIRST failing item is recorded: an attempt whose item reports include
k ≥ 1 failures ends with `failed = 1`, not `failed = k`. -/
theorem writeBatch_first_failure_only (bl t : Nat) (outs : List (Nat × Option RawErr))
    (herr : anyErr outs = true) :
    (wbRunItems bl t outs).completed = outs.length ∧
    (wbRunItems bl t outs).failed = 1 ∧
    ((wbRunItems bl t outs).settleLog ≠ [] → bl ≤ outs.length) := by
  obtain ⟨hc, he, hf, hs⟩ := wbItems_fold "bulkAdd" bl t outs wbInit
  unfold wbRunItems
  refine ⟨by simpa [wbInit] using hc, ?_, ?_⟩
  · rw [hf]
    simp [wbInit, herr]
  · intro hne
    rcases hs with h | h
    · exact absurd h (by simpa [wbInit] using hne)
    · rw [hc] at h
      simpa [wbInit] using h

/-- Witness for the amended C5 theorem: the concrete two-failure trace has a
failure among its reports, completes both items, reports exactly one failed
item, and only settles because both of the two items reported. -/
theorem writeBatch_first_failure_only_witness :
    (anyErr [(0, some ⟨"ConstraintError", "Key already exists"⟩),
        (1, some ⟨"ConstraintError", "Key already exists"⟩)] = true) ∧
    ((wbRunItems 2 100 [(0, some ⟨"ConstraintError", "Key already exists"⟩),
        (1, some ⟨"ConstraintError", "Key already exists"⟩)]).completed = 2 ∧
     (wbRunItems 2 100 [(0, some ⟨"ConstraintError", "Key already exists"⟩),
        (1, some ⟨"ConstraintError", "Key already exists"⟩)]).failed = 1 ∧
     ((wbRunItems 2 100 [(0, some ⟨"ConstraintError", "Key already exists"⟩),
        (1, some ⟨"ConstraintError", "Key already exists"⟩)]).settleLog ≠ [] → 2 ≤ 2)) :=
  ⟨by decide, writeBatch_first_failure_only 2 100
    [(0, some ⟨"ConstraintError", "Key already exists"⟩),
     (1, some ⟨"ConstraintError", "Key already exists"⟩)] (by decide)⟩

/-- One settlement attempt of the `executeWithTimeout` promise: the code
resolves with `resolvedValue as T` (an `Option α` that is `none` until the
callback's promise has fulfilled) or rejects with an error. -/
inductive ExecSettle (α : Type) where
  | resolved (v : Option α)
  | rejected (e : JsErr)
deriving Repr, DecidableEq

/-- Is this settlement attempt a `resolve` call? -/
def ExecSettle.isResolveCall : ExecSettle α → Bool
  | .resolved _ => true
  | .rejected _ => false

/-- The captured locals of one `executeWithTimeout` run whose work callback
returned a pending promise (part_017 lines 416-543): the timer handle, the
`transactionCompleted` flag, the dual-wait flags `promiseResolved` /
`transactionResolved` with the stashed `resolvedValue`, whether
`transaction.abort()` was invoked, and the log of settlement attempts. -/
structure ExecState (α : Type) where
  timerActive : Bool
  transactionCompleted : Bool
  promiseResolved : Bool
  transactionResolved : Bool
  resolvedValue : Option α
  abortRequested : Bool
  settleLog : List (ExecSettle α)
deriving Repr, DecidableEq

/-- Signals that can reach the async-path handlers: the timeout callback, the
transaction's complete / error / abort events, and the callback promise's
fulfilment or rejection. -/
inductive ExecEvent (α : Type) where
  | timerFire
  | txComplete
  | txError (err : Option RawErr)
  | txAbort
  | promiseFulfil (v : α)
  | promiseReject (e : JsErr)
deriving Repr, DecidableEq

/-- Model of `checkComplete` (part_017 lines 506-514): resolve with the stashed value
once BOTH `promiseResolved` and `transactionResolved` are set. -/
def checkComplete (st : ExecState α) : ExecState α :=
  if st.promiseResolved && st.transactionResolved && !st.transactionCompleted then
    { st with transactionCompleted := true, timerActive := false,
              settleLog := st.settleLog ++ [ExecSettle.resolved st.resolvedValue] }
  else st

/-- Model of `handleComplete` (part_017 lines 438-445): clear the timer and mark the
transaction completed. -/
def handleComplete (st : ExecState α) : ExecState α :=
  let st1 : ExecState α := { st with timerActive := false }
  if !st1.transactionCompleted then { st1 with transactionCompleted := true } else st1

/-- The async-path handlers of `executeWithTimeout`, one arm per JS handler:

* timeout callback (423-435): if not completed, mark completed, abort, reject
  with `TransactionTimeoutError`;
* the OVERRIDDEN `oncomplete` (536-543): first call the original
  `handleComplete` — which itself sets `transactionCompleted` — and only then
  test `!transactionCompleted` before setting `transactionResolved`;
* `onerror` (447-465) / `onabort` (467-481): clear the timer, reject with
  `TransactionAbortedError` unless completed;
* the callback promise's `.then` (516-523): stash the value, set
  `promiseResolved`, run `checkComplete`;
* its `.catch` (524-533): mark completed, clear the timer, abort, reject. -/
def ewtStep (timeout : Nat) (st : ExecState α) : ExecEvent α → ExecState α
  | .timerFire =>
      if st.timerActive then
        let st1 : ExecState α := { st with timerActive := false }
        if !st1.transactionCompleted then
          { st1 with transactionCompleted := true, abortRequested := true,
                     settleLog := st1.settleLog ++
                       [ExecSettle.rejected (JsErr.transactionTimeout timeout)] }
        else st1
      else st
  | .txComplete =>
      let st1 := handleComplete st
      if !st1.transactionCompleted then
        checkComplete { st1 with transactionResolved := true }
      else st1
  | .txError raw =>
      let st1 : ExecState α := { st with timerActive := false }
      if !st1.transactionCompleted then
        { st1 with transactionCompleted := true,
                   settleLog := st1.settleLog ++ [ExecSettle.rejected (JsErr.transactionAborted
                     (some ((raw.map RawErr.message).getD "Transaction failed")))] }
      else st1
  | .txAbort =>
      let st1 : ExecState α := { st with timerActive := false }
      if !st1.transactionCompleted then
        { st1 with transactionCompleted := true,
                   settleLog := st1.settleLog ++ [ExecSettle.rejected (JsErr.transactionAborted
                     (some "Transaction was aborted"))] }
      else st1
  | .promiseFulfil v =>
      if !st.transactionCompleted then
        checkComplete { st with promiseResolved := true, resolvedValue := some v }
      else st
  | .promiseReject e =>
      if !st.transactionCompleted then
        { st with transactionCompleted := true, timerActive := false, abortRequested := true,
                  settleLog := st.settleLog ++ [ExecSettle.rejected e] }
      else st

/-- State right after `executeWithTimeout` has installed its handlers and the
work callback has returned a pending promise. -/
def ewtInit : ExecState α :=
  { timerActive := true, transactionCompleted := false, promiseResolved := false,
    transactionResolved := false, resolvedValue := none, abortRequested := false,
    settleLog := [] }

/-- Run the async-path handlers over a platform-chosen event order. -/
def ewtRun (timeout : Nat) (events : List (ExecEvent α)) : ExecState α :=
  events.foldl (ewtStep timeout) ewtInit

theorem ewtStep_no_resolve (t : Nat) (st : ExecState α) (e : ExecEvent α)
    (h1 : st.transactionResolved = false)
    (h2 : (st.settleLog.all fun s => ! s.isResolveCall) = true) :
    (ewtStep t st e).transactionResolved = false ∧
    ((ewtStep t st e).settleLog.all fun s => ! s.isResolveCall) = true := by
  cases e <;>
    simp only [ewtStep, handleComplete, checkComplete] <;>
    (repeat' split) <;>
    simp_all [ExecSettle.isResolveCall]

theorem ewtRun_fold_no_resolve (t : Nat) (events : List (ExecEvent α)) (st : ExecState α)
    (h1 : st.transactionResolved = false)
    (h2 : (st.settleLog.all fun s => ! s.isResolveCall) = true) :
    (events.foldl (ewtStep t) st).transactionResolved = false ∧
    ((events.foldl (ewtStep t) st).settleLog.all fun s => ! s.isResolveCall) = true := by
  induction events generalizing st with
  | nil => exact ⟨h1, h2⟩
  | cons e rest ih =>
      obtain ⟨g1, g2⟩ := ewtStep_no_resolve t st e h1 h2
      simpa using ih (ewtStep t st e) g1 g2

/-- C3: the dual-wait path of `executeWithTimeout` NEVER resolves.  The
overridden `oncomplete` calls the original `handleComplete` first, which sets
`transactionCompleted`; the subsequent `if (!transactionCompleted)` guard is
therefore always false, so `transactionResolved` can never be set and
`checkComplete` can never fire — over EVERY event order, every settlement
attempt of the promise is a rejection, never a resolve.  Concretely, when
the callback's promise fulfils with 42 and the transaction signals
completion — in either order — the executor does not resolve at all; since
`handleComplete` also cleared the timer, the settlement log stays empty
forever (the caller hangs). -/
theorem executeWithTimeout_async_never_resolves :
    (∀ (t : Nat) (events : List (ExecEvent Nat)),
      (ewtRun t events).transactionResolved = false ∧
      ((ewtRun t events).settleLog.all fun s => ! s.isResolveCall) = true) ∧
    (ewtRun 50 [ExecEvent.promiseFulfil (42 : Nat), ExecEvent.txComplete]).settleLog = [] ∧
    (ewtRun 50 [ExecEvent.txComplete, ExecEvent.promiseFulfil (42 : Nat)]).settleLog = [] := by
  refine ⟨?_, rfl, rfl⟩
  intro t events
  exact ewtRun_fold_no_resolve t events ewtInit rfl rfl

/-- C1: the accounting invariant `success + failed = items.length` FAILS on
the code.  With 20 records, `batchSize = 15` and every write succeeding, the
first batch (records 0-14) succeeds on attempt 0, so the batch size grows
from 15 to 25 before the loop increment `i += currentBatchSize` runs; the
loop jumps from index 0 to 25 and records 15-19 are never processed: the run
returns `success = 15, failed = 0`, and `15 + 0 ≠ 20` — five items are
silently dropped. -/
theorem bulkAdd_drops_items :
    bulkAdd (fun _ => Except.ok ⟨15, 0, [], []⟩) (List.range 20) 15 0 =
      { success := 15, failed := 0, failedIndices := none, errors := none } ∧
    ¬ ((bulkAdd (fun _ => Except.ok ⟨15, 0, [], []⟩) (List.range 20) 15 0).success +
        (bulkAdd (fun _ => Except.ok ⟨15, 0, [], []⟩) (List.range 20) 15 0).failed =
        (List.range 20).length) := by
  constructor
  · rfl
  · decide

/-- C7: the final progress invocation does NOT report `done = total` on the
code.  With 25 records, `batchSize = 15` and every write succeeding, the
single batch (records 0-14) succeeds, progress is reported as `(15, 25)`, the
grown batch size 25 makes the loop jump past the end, and the run ends with
exactly one progress call whose `done = 15 ≠ 25 = total`. -/
theorem progress_final_not_total :
    (bulkAddModel (fun _ => Except.ok ⟨15, 0, [], []⟩) (List.range 25) 15 0).progressLog =
      [(15, 25)] ∧ ¬ ((15 : Nat) = 25) := by
  constructor
  · rfl
  · decide

/-- One step of `deleteBatch`'s synchronous request-issue loop (part_004
lines 388-446), at batch-local index `i`.  A `null`/`undefined` key (`none`)
is recorded as failed immediately — `failed`, `failedIndices`, a synthesized
"Invalid key at index i" error and the completion counter all bump, and the
promise resolves right there if this was the last key — and the key is never
submitted.  A present key's `store.delete` request is submitted: its index is
appended to the submission log (second component) and its handlers fire as
later `itemDone` events. -/
def delIssueStep (total : Nat) (acc : WBState × List Nat) (i : Nat) :
    Option κ → WBState × List Nat
  | none =>
      let st := acc.1
      let st1 : WBState :=
        { st with failed := st.failed + 1,
                  failedIndices := st.failedIndices ++ [i],
                  errors := st.errors ++ [JsErr.generic ("Invalid key at index " ++ toString i)],
                  completed := st.completed + 1 }
      if st1.completed == total then
        ({ st1 with timerActive := false, transactionCompleted := true,
                    settleLog := st1.settleLog ++ [Settle.resolved (wbResults st1)] }, acc.2)
      else
        (st1, acc.2)
  | some _ => (acc.1, acc.2 ++ [i])

/-- Model of the issue loop `for (let i = 0; i < keys.length; i++)` of `deleteBatch`. -/
def delIssueGo (total : Nat) : Nat → List (Option κ) → WBState × List Nat → WBState × List Nat
  | _, [], acc => acc
  | i, k :: rest, acc => delIssueGo total (i + 1) rest (delIssueStep total acc i k)

/-- State and submission log after `deleteBatch` has walked all its keys. -/
def delIssue (keys : List (Option κ)) : WBState × List Nat :=
  delIssueGo keys.length 0 keys (wbInit, [])

/-- Run `deleteBatch`: the synchronous issue phase, then the platform-chosen
events delivered to the handlers of the submitted requests. -/
def delRun (keys : List (Option κ)) (timeout : Nat) (events : List WBEvent) : WBState :=
  events.foldl (wbStep "bulkDelete" keys.length timeout) (delIssue keys).1

/-- The settled outcome of a batch promise: the FIRST settlement attempt wins
(JS promise semantics); `none` when the log is empty — the promise is still
pending and its awaiter stays suspended. -/
def settledOutcome (st : WBState) : Option (Except JsErr WBRes) :=
  match st.settleLog.head? with
  | some (Settle.resolved r) => some (Except.ok r)
  | some (Settle.rejected e) => some (Except.error e)
  | none => none

/-- Batch-local indices (from offset `i`) of the present keys — those whose
`store.delete` request is actually submitted to the storage engine. -/
def submittedIdx : Nat → List (Option κ) → List Nat
  | _, [] => []
  | i, none :: rest => submittedIdx (i + 1) rest
  | i, some _ :: rest => i :: submittedIdx (i + 1) rest

/-- Batch-local indices of the `null`/`undefined` keys. -/
def invalidIdx : Nat → List (Option κ) → List Nat
  | _, [] => []
  | i, none :: rest => i :: invalidIdx (i + 1) rest
  | i, some _ :: rest => invalidIdx (i + 1) rest

theorem delIssueStep_none_facts (κ : Type) (total : Nat) (acc : WBState × List Nat) (i : Nat) :
    (delIssueStep (κ := κ) total acc i none).1.failedIndices
      = acc.1.failedIndices ++ [i] ∧
    (delIssueStep (κ := κ) total acc i none).1.errors
      = acc.1.errors ++ [JsErr.generic ("Invalid key at index " ++ toString i)] ∧
    (delIssueStep (κ := κ) total acc i none).1.failed = acc.1.failed + 1 ∧
    (delIssueStep (κ := κ) total acc i none).2 = acc.2 := by
  simp only [delIssueStep]
  try dsimp only
  split <;> exact ⟨rfl, rfl, rfl, rfl⟩

theorem delIssueGo_spec (κ : Type) (total : Nat) (keys : List (Option κ)) :
    ∀ (i : Nat) (acc : WBState × List Nat),
      (delIssueGo total i keys acc).2 = acc.2 ++ submittedIdx i keys ∧
      (delIssueGo total i keys acc).1.failedIndices
        = acc.1.failedIndices ++ invalidIdx i keys ∧
      (delIssueGo total i keys acc).1.errors
        = acc.1.errors ++ (invalidIdx i keys).map
            (fun j => JsErr.generic ("Invalid key at index " ++ toString j)) ∧
      (delIssueGo total i keys acc).1.failed = acc.1.failed + (invalidIdx i keys).length := by
  induction keys with
  | nil =>
      intro i acc
      simp [delIssueGo, submittedIdx, invalidIdx]
  | cons k rest ih =>
      intro i acc
      cases k with
      | none =>
          obtain ⟨g1, g2, g3, g4⟩ := ih (i + 1) (delIssueStep total acc i none)
          obtain ⟨s1, s2, s3, s4⟩ := delIssueStep_none_facts κ total acc i
          simp only [delIssueGo, submittedIdx, invalidIdx]
          refine ⟨?_, ?_, ?_, ?_⟩
          · rw [g1, s4]
          · rw [g2, s1]
            simp
          · rw [g3, s2]
            simp
          · rw [g4, s3]
            simp only [List.length_cons]
            omega
      | some v =>
          obtain ⟨g1, g2, g3, g4⟩ := ih (i + 1) (delIssueStep total acc i (some v))
          simp only [delIssueGo, submittedIdx, invalidIdx]
          refine ⟨?_, ?_, ?_, ?_⟩
          · rw [g1]
            simp [delIssueStep]
          · rw [g2]
            simp [delIssueStep]
          · rw [g3]
            simp [delIssueStep]
          · rw [g4]
            simp [delIssueStep]

theorem submittedIdx_ge (κ : Type) :
    ∀ (keys : List (Option κ)) (i m : Nat), m ∈ submittedIdx i keys → i ≤ m := by
  intro keys
  induction keys with
  | nil =>
      intro i m h
      simp [submittedIdx] at h
  | cons k rest ih =>
      intro i m h
      cases k with
      | none =>
          have := ih (i + 1) m (by simpa [submittedIdx] using h)
          omega
      | some v =>
          simp only [submittedIdx, List.mem_cons] at h
          rcases h with h | h
          · omega
          · have := ih (i + 1) m h
            omega

theorem get_none_mem_invalidIdx (κ : Type) :
    ∀ (keys : List (Option κ)) (i0 j : Nat), keys.get? j = some none →
      (i0 + j) ∈ invalidIdx i0 keys := by
  intro keys
  induction keys with
  | nil =>
      intro i0 j h
      simp [List.get?] at h
  | cons k rest ih =>
      intro i0 j h
      cases j with
      | zero =>
          simp only [List.get?] at h
          cases h
          simp [invalidIdx]
      | succ m =>
          simp only [List.get?] at h
          have hx := ih (i0 + 1) m h
          have harith : i0 + (m + 1) = (i0 + 1) + m := by omega
          cases k with
          | none =>
              simp only [invalidIdx, List.mem_cons]
              right
              rw [harith]
              exact hx
          | some v =>
              simp only [invalidIdx]
              rw [harith]
              exact hx

theorem get_none_not_mem_submittedIdx (κ : Type) :
    ∀ (keys : List (Option κ)) (i0 j : Nat), keys.get? j = some none →
      (i0 + j) ∉ submittedIdx i0 keys := by
  intro keys
  induction keys with
  | nil =>
      intro i0 j h
      simp [submittedIdx]
  | cons k rest ih =>
      intro i0 j h
      cases j with
      | zero =>
          simp only [List.get?] at h
          cases h
          simp only [submittedIdx]
          intro hmem
          have := submittedIdx_ge κ rest (i0 + 1) (i0 + 0) hmem
          omega
      | succ m =>
          simp only [List.get?] at h
          have hx := ih (i0 + 1) m h
          have harith : i0 + (m + 1) = (i0 + 1) + m := by omega
          cases k with
          | none =>
              simp only [submittedIdx]
              rw [harith]
              exact hx
          | some v =>
              simp only [submittedIdx, List.mem_cons]
              intro hmem
              rcases hmem with hmem | hmem
              · omega
              · rw [harith] at hmem
                exact hx hmem

theorem addBatchTry_curSize_bounds (env : Nat → Except JsErr WBRes)
    (maxRetries batchSize batchStart batchLen : Nat) (hb : 10 ≤ batchSize) :
    ∀ (fuel attempt : Nat) (st : RunSt), 10 ≤ st.curSize → st.curSize ≤ batchSize * 2 →
      10 ≤ (addBatchTry env maxRetries batchSize batchStart batchLen attempt fuel st).curSize ∧
      (addBatchTry env maxRetries batchSize batchStart batchLen attempt fuel st).curSize
        ≤ batchSize * 2 := by
  intro fuel
  induction fuel with
  | zero =>
      intro attempt st h1 h2
      exact ⟨h1, h2⟩
  | succ n ih =>
      intro attempt st h1 h2
      simp only [addBatchTry]
      cases henv : env st.calls with
      | ok r =>
          dsimp only
          split
          · constructor
            · show 10 ≤ min (st.curSize + 10) (batchSize * 2)
              omega
            · show min (st.curSize + 10) (batchSize * 2) ≤ batchSize * 2
              omega
          · exact ⟨h1, h2⟩
      | error e =>
          dsimp only
          split
          · constructor
            · show 10 ≤ max (st.curSize / 2) 10
              omega
            · show max (st.curSize / 2) 10 ≤ batchSize * 2
              omega
          · split
            · refine ih (attempt + 1) _ ?_ ?_
              · show 10 ≤ max (st.curSize * 7 / 10) 10
                omega
              · show max (st.curSize * 7 / 10) 10 ≤ batchSize * 2
                omega
            · exact ih (attempt + 1) _ h1 h2

theorem delBatchTry_curSize_bounds (env : Nat → Except JsErr WBRes)
    (maxRetries batchStart batchLen batchSize : Nat) (hb : 10 ≤ batchSize) :
    ∀ (fuel attempt : Nat) (st : RunSt), 10 ≤ st.curSize → st.curSize ≤ batchSize * 2 →
      10 ≤ (delBatchTry env maxRetries batchStart batchLen attempt fuel st).curSize ∧
      (delBatchTry env maxRetries batchStart batchLen attempt fuel st).curSize
        ≤ batchSize * 2 := by
  intro fuel
  induction fuel with
  | zero =>
      intro attempt st h1 h2
      exact ⟨h1, h2⟩
  | succ n ih =>
      intro attempt st h1 h2
      simp only [delBatchTry]
      cases henv : env st.calls with
      | ok r => exact ⟨h1, h2⟩

      | error e =>
          dsimp only
          split
          · constructor
            · show 10 ≤ max (st.curSize / 2) 10
              omega
            · show max (st.curSize / 2) 10 ≤ batchSize * 2
              omega
          · split
            · refine ih (attempt + 1) _ ?_ ?_
              · show 10 ≤ max (st.curSize * 7 / 10) 10
                omega
              · show max (st.curSize * 7 / 10) 10 ≤ batchSize * 2
                omega
            · exact ih (attempt + 1) _ h1 h2

theorem bulkAddLoop_curSize_bounds (env : Nat → Except JsErr WBRes)
    (maxRetries batchSize total : Nat) (hb : 10 ≤ batchSize) :
    ∀ (fuel i : Nat) (st : RunSt), 10 ≤ st.curSize → st.curSize ≤ batchSize * 2 →
      10 ≤ (bulkAddLoop env maxRetries batchSize total i fuel st).curSize ∧
      (bulkAddLoop env maxRetries batchSize total i fuel st).curSize ≤ batchSize * 2 := by
  intro fuel
  induction fuel with
  | zero =>
      intro i st h1 h2
      exact ⟨h1, h2⟩
  | succ n ih =>
      intro i st h1 h2
      simp only [bulkAddLoop]
      split
      · have hmid := addBatchTry_curSize_bounds env maxRetries batchSize i
          (min st.curSize (total - i)) hb (maxRetries + 1) 0 st h1 h2
        exact ih _ _ (by simpa using hmid.1) (by simpa using hmid.2)
      · exact ⟨h1, h2⟩

theorem bulkDeleteLoop_curSize_bounds (env : Nat → Except JsErr WBRes)
    (maxRetries total batchSize : Nat) (hb : 10 ≤ batchSize) :
    ∀ (fuel i : Nat) (st : RunSt), 10 ≤ st.curSize → st.curSize ≤ batchSize * 2 →
      10 ≤ (bulkDeleteLoop env maxRetries total i fuel st).curSize ∧
      (bulkDeleteLoop env maxRetries total i fuel st).curSize ≤ batchSize * 2 := by
  intro fuel
  induction fuel with
  | zero =>
      intro i st h1 h2
      exact ⟨h1, h2⟩
  | succ n ih =>
      intro i st h1 h2
      simp only [bulkDeleteLoop]
      split
      · have hmid := delBatchTry_curSize_bounds env maxRetries i
          (min st.curSize (total - i)) batchSize hb (maxRetries + 1) 0 st h1 h2
        exact ih _ _ (by simpa using hmid.1) (by simpa using hmid.2)
      · exact ⟨h1, h2⟩

/-- C6: with an initially configured batch size of at least 10, the current
batch size stays within `[10, 2 × initial]` after ANY sequence of batch
successes and failures, in both `bulkAdd` and `bulkDelete`: growth is
`min(current + 10, 2 × initial)` and only happens below the cap, and every
shrink (`×0.7` from the second retry on, `×0.5` after exhausted retries) is
floored at 10. -/
theorem batchSize_bounds (envA envD : Nat → Except JsErr WBRes)
    (maxRetries batchSize totalA totalD iA iD fuelA fuelD : Nat) (st : RunSt)
    (hb : 10 ≤ batchSize) (h1 : 10 ≤ st.curSize) (h2 : st.curSize ≤ batchSize * 2) :
    (10 ≤ (bulkAddLoop envA maxRetries batchSize totalA iA fuelA st).curSize ∧
      (bulkAddLoop envA maxRetries batchSize totalA iA fuelA st).curSize ≤ batchSize * 2) ∧
    (10 ≤ (bulkDeleteLoop envD maxRetries totalD iD fuelD st).curSize ∧
      (bulkDeleteLoop envD maxRetries totalD iD fuelD st).curSize ≤ batchSize * 2) :=
  ⟨bulkAddLoop_curSize_bounds envA maxRetries batchSize totalA hb fuelA iA st h1 h2,
   bulkDeleteLoop_curSize_bounds envD maxRetries totalD batchSize hb fuelD iD st h1 h2⟩

/-- Witness for C6 at a concrete run: initial size 12 (≥ 10), 30 records,
every batch submission rejected, one retry — the loop shrinks and still ends
inside `[10, 24]`. -/
theorem batchSize_bounds_witness :
    (10 ≤ (12 : Nat) ∧ 10 ≤ (runInit 12).curSize ∧ (runInit 12).curSize ≤ 12 * 2) ∧
    ((10 ≤ (bulkAddLoop (fun _ => Except.error (JsErr.transactionAborted none)) 1 12 30 0 30
        (runInit 12)).curSize ∧
      (bulkAddLoop (fun _ => Except.error (JsErr.transactionAborted none)) 1 12 30 0 30
        (runInit 12)).curSize ≤ 12 * 2) ∧
     (10 ≤ (bulkDeleteLoop (fun _ => Except.error (JsErr.transactionAborted none)) 1 30 0 30
        (runInit 12)).curSize ∧
      (bulkDeleteLoop (fun _ => Except.error (JsErr.transactionAborted none)) 1 30 0 30
        (runInit 12)).curSize ≤ 12 * 2)) :=
  ⟨⟨by decide, by decide, by decide⟩,
    batchSize_bounds (fun _ => Except.error (JsErr.transactionAborted none))
      (fun _ => Except.error (JsErr.transactionAborted none)) 1 12 30 30 0 0 30 30
      (runInit 12) (by decide) (by decide) (by decide)⟩

/-- C9: a `null`/`undefined` key in a `bulkDelete` batch is recorded as
failed immediately — its index lands in `failedIndices` together with a
synthesized "Invalid key at index i" error and a `failed` increment — and
that key is never submitted to the storage engine (it never enters the
submission log).  Concretely, `bulkDelete([null, 'validKey'])` resolves its
single batch as `{success: 1, failed: 1, failedIndices: [0]}` once the valid
key's delete succeeds, and the overall call returns
`{success: 1, failed: 1, failedIndices: [0], errors: [invalid-key error]}`. -/
theorem bulkDelete_invalid_key :
    (∀ (κ : Type) (keys : List (Option κ)) (i : Nat), keys.get? i = some none →
      i ∈ (delIssue keys).1.failedIndices ∧
      JsErr.generic ("Invalid key at index " ++ toString i) ∈ (delIssue keys).1.errors ∧
      i ∉ (delIssue keys).2) ∧
    settledOutcome (delRun ([none, some "validKey"] : List (Option String)) 5000
        [WBEvent.itemDone 1 none]) =
      some (Except.ok ⟨1, 1, [0], [JsErr.generic "Invalid key at index 0"]⟩) ∧
    bulkDelete (fun _ => Except.ok ⟨1, 1, [0], [JsErr.generic "Invalid key at index 0"]⟩)
        ([none, some "validKey"] : List (Option String)) 10 0 =
      { success := 1, failed := 1, failedIndices := some [0],
        errors := some [JsErr.generic "Invalid key at index 0"] } := by
  refine ⟨?_, rfl, rfl⟩
  intro κ keys i h
  obtain ⟨g1, g2, g3, g4⟩ := delIssueGo_spec κ keys.length keys 0 (wbInit, [])
  have hmemI : i ∈ invalidIdx 0 keys := by
    have hx := get_none_mem_invalidIdx κ keys 0 i h
    simpa using hx
  have hmemS : i ∉ submittedIdx 0 keys := by
    have hx := get_none_not_mem_submittedIdx κ keys 0 i h
    simpa using hx
  refine ⟨?_, ?_, ?_⟩
  · rw [delIssue, g2]
    simpa [wbInit] using hmemI
  · rw [delIssue, g3]
    simpa [wbInit] using List.mem_map_of_mem _ hmemI
  · rw [delIssue]
    intro hx
    rw [g1] at hx
    exact hmemS (by simpa using hx)

/-- Witness for C9 at `keys = [null, 'validKey']`, `i = 0`. -/
theorem bulkDelete_invalid_key_witness :
    ([none, some "validKey"] : List (Option String)).get? 0 = some none ∧
    (0 ∈ (delIssue ([none, some "validKey"] : List (Option String))).1.failedIndices ∧
     JsErr.generic ("Invalid key at index " ++ toString (0 : Nat)) ∈
       (delIssue ([none, some "validKey"] : List (Option String))).1.errors ∧
     0 ∉ (delIssue ([none, some "validKey"] : List (Option String))).2) :=
  ⟨rfl, bulkDelete_invalid_key.1 String [none, some "validKey"] 0 rfl⟩

/-- Well-formedness of a resolved batch result as `writeBatch` / `deleteBatch`
produce one: the failure count equals the number of recorded failed indices,
and errors were recorded iff something failed. -/
def WBResWF (r : WBRes) : Prop :=
  r.failed = r.failedIndices.length ∧ (r.failed = 0 ↔ r.errors = [])

/-- Every resolved outcome the environment can supply is well-formed. -/
def EnvWF (env : Nat → Except JsErr WBRes) : Prop :=
  ∀ n r, env n = Except.ok r → WBResWF r

/-- Accounting invariant on the bulk loop state: failure count = number of
recorded indices, errors recorded iff failures recorded, batch size
positive. -/
def RunAcct (st : RunSt) : Prop :=
  st.failed = st.failedIndices.length ∧ (st.failed = 0 ↔ st.errors = []) ∧ 1 ≤ st.curSize

theorem addBatchTry_acct (env : Nat → Except JsErr WBRes)
    (maxRetries batchSize batchStart batchLen : Nat)
    (henv : EnvWF env) (hb : 1 ≤ batchSize) (hl : 1 ≤ batchLen) :
    ∀ (fuel attempt : Nat) (st : RunSt), RunAcct st →
      RunAcct (addBatchTry env maxRetries batchSize batchStart batchLen attempt fuel st) := by
  intro fuel
  induction fuel with
  | zero =>
      intro attempt st h
      exact h
  | succ n ih =>
      intro attempt st h
      obtain ⟨h1, h2, h3⟩ := h
      simp only [addBatchTry]
      cases hoc : env st.calls with
      | ok r =>
          obtain ⟨w1, w2⟩ := henv st.calls r hoc
          dsimp only
          split
          · refine ⟨?_, ?_, ?_⟩
            · show st.failed + r.failed
                = (st.failedIndices ++ r.failedIndices.map fun idx => batchStart + idx).length
              rw [List.length_append, List.length_map]
              omega
            · show st.failed + r.failed = 0 ↔ st.errors ++ r.errors = []
              rw [List.append_eq_nil]
              constructor
              · intro h0
                exact ⟨h2.mp (by omega), w2.mp (by omega)⟩
              · intro h0
                have e1 := h2.mpr h0.1
                have e2 := w2.mpr h0.2
                omega
            · show 1 ≤ min (st.curSize + 10) (batchSize * 2)
              omega
          · refine ⟨?_, ?_, h3⟩
            · show st.failed + r.failed
                = (st.failedIndices ++ r.failedIndices.map fun idx => batchStart + idx).length
              rw [List.length_append, List.length_map]
              omega
            · show st.failed + r.failed = 0 ↔ st.errors ++ r.errors = []
              rw [List.append_eq_nil]
              constructor
              · intro h0
                exact ⟨h2.mp (by omega), w2.mp (by omega)⟩
              · intro h0
                have e1 := h2.mpr h0.1
                have e2 := w2.mpr h0.2
                omega
      | error e =>
          dsimp only
          split
          · refine ⟨?_, ?_, ?_⟩
            · show st.failed + batchLen
                = (st.failedIndices ++ (List.range batchLen).map fun idx => batchStart + idx).length
              rw [List.length_append, List.length_map, List.length_range]
              omega
            · show st.failed + batchLen = 0 ↔ st.errors ++ [e] = []
              exact iff_of_false (by omega) (by simp)
            · show 1 ≤ max (st.curSize / 2) 10
              omega
          · split
            · refine ih (attempt + 1) _ ⟨h1, h2, ?_⟩
              show 1 ≤ max (st.curSize * 7 / 10) 10
              omega
            · exact ih (attempt + 1) _ ⟨h1, h2, h3⟩

theorem delBatchTry_acct (env : Nat → Except JsErr WBRes)
    (maxRetries batchStart batchLen : Nat)
    (henv : EnvWF env) (hl : 1 ≤ batchLen) :
    ∀ (fuel attempt : Nat) (st : RunSt), RunAcct st →
      RunAcct (delBatchTry env maxRetries batchStart batchLen attempt fuel st) := by
  intro fuel
  induction fuel with
  | zero =>
      intro attempt st h
      exact h
  | succ n ih =>
      intro attempt st h
      obtain ⟨h1, h2, h3⟩ := h
      simp only [delBatchTry]
      cases hoc : env st.calls with
      | ok r =>
          obtain ⟨w1, w2⟩ := henv st.calls r hoc
          refine ⟨?_, ?_, h3⟩
          · show st.failed + r.failed
              = (st.failedIndices ++ r.failedIndices.map fun idx => batchStart + idx).length
            rw [List.length_append, List.length_map]
            omega
          · show st.failed + r.failed = 0 ↔ st.errors ++ r.errors = []
            rw [List.append_eq_nil]
            constructor
            · intro h0
              exact ⟨h2.mp (by omega), w2.mp (by omega)⟩
            · intro h0
              have e1 := h2.mpr h0.1
              have e2 := w2.mpr h0.2
              omega
      | error e =>
          dsimp only
          split
          · refine ⟨?_, ?_, ?_⟩
            · show st.failed + batchLen
                = (st.failedIndices ++ (List.range batchLen).map fun idx => batchStart + idx).length
              rw [List.length_append, List.length_map, List.length_range]
              omega
            · show st.failed + batchLen = 0 ↔ st.errors ++ [e] = []
              exact iff_of_false (by omega) (by simp)
            · show 1 ≤ max (st.curSize / 2) 10
              omega
          · split
            · refine ih (attempt + 1) _ ⟨h1, h2, ?_⟩
              show 1 ≤ max (st.curSize * 7 / 10) 10
              omega
            · exact ih (attempt + 1) _ ⟨h1, h2, h3⟩

theorem bulkAddLoop_acct (env : Nat → Except JsErr WBRes)
    (maxRetries batchSize total : Nat) (henv : EnvWF env) (hb : 1 ≤ batchSize) :
    ∀ (fuel i : Nat) (st : RunSt), RunAcct st →
      RunAcct (bulkAddLoop env maxRetries batchSize total i fuel st) := by
  intro fuel
  induction fuel with
  | zero =>
      intro i st h
      exact h
  | succ n ih =>
      intro i st h
      simp only [bulkAddLoop]
      split
      · rename_i hi
        have hbl : 1 ≤ min st.curSize (total - i) := by
          have hc := h.2.2
          omega
        have hmid := addBatchTry_acct env maxRetries batchSize i (min st.curSize (total - i))
          henv hb hbl (maxRetries + 1) 0 st h
        exact ih _ _ ⟨hmid.1, hmid.2.1, hmid.2.2⟩
      · exact h

theorem bulkDeleteLoop_acct (env : Nat → Except JsErr WBRes)
    (maxRetries total : Nat) (henv : EnvWF env) :
    ∀ (fuel i : Nat) (st : RunSt), RunAcct st →
      RunAcct (bulkDeleteLoop env maxRetries total i fuel st) := by
  intro fuel
  induction fuel with
  | zero =>
      intro i st h
      exact h
  | succ n ih =>
      intro i st h
      simp only [bulkDeleteLoop]
      split
      · rename_i hi
        have hbl : 1 ≤ min st.curSize (total - i) := by
          have hc := h.2.2
          omega
        have hmid := delBatchTry_acct env maxRetries i (min st.curSize (total - i))
          henv hbl (maxRetries + 1) 0 st h
        exact ih _ _ ⟨hmid.1, hmid.2.1, hmid.2.2⟩
      · exact h

/-- The optional fields of a `BulkWriteResult` are present exactly when a
failure was recorded. -/
def fieldsPresentIff (r : BulkWriteResult) : Prop :=
  (r.failedIndices.isSome = true ↔ 0 < r.failed) ∧ (r.errors.isSome = true ↔ 0 < r.failed)

theorem finalize_fieldsPresentIff (st : RunSt)
    (a1 : st.failed = st.failedIndices.length) (a2 : st.failed = 0 ↔ st.errors = []) :
    fieldsPresentIff (finalizeResult st) := by
  constructor
  · show (if 0 < st.failedIndices.length then some st.failedIndices else none).isSome
        = true ↔ 0 < st.failed
    split
    · rename_i hq
      exact iff_of_true rfl (by omega)
    · rename_i hq
      exact iff_of_false (by simp) (by omega)
  · show (if 0 < st.errors.length then some st.errors else none).isSome = true ↔ 0 < st.failed
    split
    · rename_i hq
      refine iff_of_true rfl ?_
      have hne : st.errors ≠ [] := by
        intro hnil
        rw [hnil] at hq
        simp at hq
      have hf : ¬ st.failed = 0 := fun h0 => hne (a2.mp h0)
      omega
    · rename_i hq
      refine iff_of_false (by simp) ?_
      have hnil : st.errors = [] := by
        cases hE : st.errors with
        | nil => rfl
        | cons a l =>
            rw [hE] at hq
            simp at hq
      intro h0
      have := a2.mpr hnil
      omega

/-- C10: the `failedIndices` and `errors` fields of a completed `bulkAdd` or
`bulkDelete` result are present (`some`) exactly when at least one failure
was recorded; when every item succeeds both are omitted (`none`), never
returned as empty arrays. -/
theorem result_fields_present_iff (envA envD : Nat → Except JsErr WBRes)
    (records : List α) (keys : List (Option κ)) (bsA mrA bsD mrD : Nat)
    (hA : EnvWF envA) (hD : EnvWF envD) (hbA : 1 ≤ bsA) (hbD : 1 ≤ bsD) :
    fieldsPresentIff (bulkAdd envA records bsA mrA) ∧
    fieldsPresentIff (bulkDelete envD keys bsD mrD) := by
  constructor
  · rw [bulkAdd]
    split
    · exact ⟨by simp, by simp⟩
    · have h := bulkAddLoop_acct envA mrA bsA records.length hA hbA records.length 0
        (runInit bsA) ⟨rfl, iff_of_true rfl rfl, hbA⟩
      exact finalize_fieldsPresentIff _ h.1 h.2.1
  · rw [bulkDelete]
    split
    · exact ⟨by simp, by simp⟩
    · have h := bulkDeleteLoop_acct envD mrD keys.length hD keys.length 0
        (runInit bsD) ⟨rfl, iff_of_true rfl rfl, hbD⟩
      exact finalize_fieldsPresentIff _ h.1 h.2.1

/-- Witness for C10: a two-record `bulkAdd` and a one-key `bulkDelete`
against an environment whose batches fully succeed — `EnvWF` holds for the
constant all-success environment, the batch sizes are positive, and both
results satisfy the present-iff-failed property (concretely, all fields are
`none` since nothing failed). -/
theorem result_fields_present_iff_witness :
    EnvWF (fun _ => Except.ok ⟨2, 0, [], []⟩) ∧ (1 ≤ (10 : Nat)) ∧
    (fieldsPresentIff (bulkAdd (fun _ => Except.ok ⟨2, 0, [], []⟩) [true, false] 10 0) ∧
     fieldsPresentIff (bulkDelete (fun _ => Except.ok ⟨2, 0, [], []⟩)
       ([some 5] : List (Option Nat)) 10 0)) :=
  ⟨fun n r h => by cases h; exact ⟨rfl, iff_of_true rfl rfl⟩, by omega,
    result_fields_present_iff (fun _ => Except.ok ⟨2, 0, [], []⟩)
      (fun _ => Except.ok ⟨2, 0, [], []⟩) [true, false] ([some 5] : List (Option Nat)) 10 0 10 0
      (fun n r h => by cases h; exact ⟨rfl, iff_of_true rfl rfl⟩)
      (fun n r h => by cases h; exact ⟨rfl, iff_of_true rfl rfl⟩)
      (by omega) (by omega)⟩

end NitroIDB
